import Mathlib

/-!
Shallow embedding of the cart-pricing and checkout core of the metalzone
storefront (src/app.py, src/models.py).

Monetary values are embedded as exact rationals (`ℚ`); the Python source
stores them in float columns, and `round(x, 2)` is embedded as
round-half-to-even on the exact value, which is Python's documented rounding
mode.  Times are embedded as integers (`Int`), quantities and stock counts as
integers, product/coupon/order tables as lists of records.  Nondeterministic
generators (`generate_order_number`, `generate_tracking_code`) are passed in
as parameters.
-/

namespace Metalzone

/-- Embeds the `Product` model (src/models.py): the fields read by the
pricing/checkout core. -/
structure Product where
  id : Nat
  name : String
  sku : String
  price : ℚ
  stock : Int
  sold_count : Int
  is_active : Bool
deriving Repr, DecidableEq

/-- Embeds the `Coupon` model (src/models.py): the fields read by the
coupon logic.  `max_discount` and `usage_limit` are nullable columns. -/
structure Coupon where
  code : String
  discount_type : String
  discount_value : ℚ
  min_purchase : ℚ
  max_discount : Option ℚ
  usage_limit : Option Int
  used_count : Int
  valid_from : Int
  valid_until : Int
  is_active : Bool
deriving Repr, DecidableEq

/-- One entry of the list built by `cart_items` (src/app.py lines 247-251):
the product, the clamped quantity, and the line subtotal. -/
structure CartLine where
  product : Product
  quantity : Int
  subtotal : ℚ
deriving Repr, DecidableEq

/-- `Product.query.get(pid)`: lookup in the product table. -/
def findProduct (ps : List Product) (pid : Nat) : Option Product :=
  ps.find? (fun p => p.id == pid)

/-- Pricing of a single cart line (src/app.py lines 244-251): skip the line
unless the product exists, is active and has positive stock; clamp the
quantity to the available stock (`qty = min(qty, product.stock)`). -/
def priceLine (ps : List Product) (pid : Nat) (qty : Int) : Option CartLine :=
  match findProduct ps pid with
  | none => none
  | some p =>
    if p.is_active = true ∧ 0 < p.stock then
      some ⟨p, min qty p.stock, (min qty p.stock : ℚ) * p.price⟩
    else none

/-- The priced lines of a session cart (src/app.py lines 241-251). -/
def cartLines (ps : List Product) (cart : List (Nat × Int)) : List CartLine :=
  cart.filterMap (fun l => priceLine ps l.1 l.2)

/-- Embeds Python's `round(x, 2)` on exact values: round to 2 decimal places,
ties to the even hundredth (Python's documented round-half-to-even). -/
def round2 (x : ℚ) : ℚ :=
  (if 100 * x - (⌊100 * x⌋ : ℚ) < 1/2 then (⌊100 * x⌋ : ℚ)
   else if 1/2 < 100 * x - (⌊100 * x⌋ : ℚ) then (⌊100 * x⌋ : ℚ) + 1
   else if ⌊100 * x⌋ % 2 = 0 then (⌊100 * x⌋ : ℚ)
   else (⌊100 * x⌋ : ℚ) + 1) / 100

/-- Modelled from the spec: "standard half-up rounding to 2 decimals"
(spec §4.1); used only to compare the spec's words against `round2`. -/
def roundHalfUp2 (x : ℚ) : ℚ :=
  ((⌊100 * x + 1/2⌋ : Int) : ℚ) / 100

/-- Python's `m or d` for a nullable numeric `m`: `None` and `0` are both
falsy, so either yields `d` (src/app.py line 261, `coupon.max_discount or
subtotal`). -/
def pyOrQ (m : Option ℚ) (d : ℚ) : ℚ :=
  match m with
  | none => d
  | some x => if x = 0 then d else x

/-- `Coupon.query.filter_by(code=code, is_active=True).first()`
(src/app.py line 258). -/
def findActiveCoupon (cs : List Coupon) (code : String) : Option Coupon :=
  cs.find? (fun c => c.code == code && c.is_active)

/-- The discount a single coupon record yields on a subtotal (src/app.py
lines 259-263): zero outside the validity window, otherwise the
type-specific minimum.  Note that neither `usage_limit`/`used_count` nor
`min_purchase` is consulted here. -/
def couponDiscountAt (coupon : Coupon) (now : Int) (subtotal : ℚ) : ℚ :=
  if coupon.valid_from ≤ now ∧ now ≤ coupon.valid_until then
    if coupon.discount_type = "percentage" then
      min (subtotal * coupon.discount_value / 100) (pyOrQ coupon.max_discount subtotal)
    else
      min coupon.discount_value subtotal
  else 0

/-- The discount derived from the session coupon code (src/app.py
lines 255-263). -/
def couponSessionDiscount (cs : List Coupon) (coupon_code : Option String)
    (now : Int) (subtotal : ℚ) : ℚ :=
  match coupon_code with
  | none => 0
  | some code =>
    match findActiveCoupon cs code with
    | none => 0
    | some coupon => couponDiscountAt coupon now subtotal

/-- The five monetary figures returned by `cart_items`. -/
structure Totals where
  subtotal : ℚ
  tax : ℚ
  shipping : ℚ
  discount : ℚ
  grand_total : ℚ
deriving Repr, DecidableEq

/-- Embeds `cart_items` (src/app.py lines 240-265): price the cart lines,
then subtotal, 18% tax rounded to 2 decimals, flat shipping of 50 waived
from 500 up, session-coupon discount, and the grand total. -/
def cart_items (ps : List Product) (cs : List Coupon) (cart : List (Nat × Int))
    (coupon_code : Option String) (now : Int) : List CartLine × Totals :=
  let items := cartLines ps cart
  let subtotal := (items.map (fun i => i.subtotal)).sum
  let tax := round2 (subtotal * (18/100))
  let shipping : ℚ := if 500 ≤ subtotal then 0 else 50
  let discount := couponSessionDiscount cs coupon_code now subtotal
  (items, ⟨subtotal, tax, shipping, discount, subtotal + tax + shipping - discount⟩)

/-- Embeds the `OrderItem` model (src/models.py): product snapshot fields. -/
structure OrderItem where
  product_id : Nat
  quantity : Int
  unit_price : ℚ
  product_name : String
  product_sku : String
deriving Repr, DecidableEq

/-- Embeds the `Order` model (src/models.py) with its line items inlined
(the `items` relationship). -/
structure Order where
  id : Nat
  order_number : String
  status : String
  payment_status : String
  subtotal : ℚ
  tax : ℚ
  shipping : ℚ
  discount : ℚ
  coupon_code : Option String
  total : ℚ
  tracking_code : Option String
  delivered_at : Option Int
  items : List OrderItem
deriving Repr, DecidableEq

/-- Embeds `Order.recalc_total` (src/models.py lines 157-159). -/
def Order.recalc_total (o : Order) : Order :=
  let s := (o.items.map (fun it => (it.quantity : ℚ) * it.unit_price)).sum
  { o with subtotal := s, total := s + o.tax + o.shipping - o.discount }

/-- The shared persistent state touched by the checkout/lifecycle core. -/
structure StoreState where
  products : List Product
  coupons : List Coupon
  orders : List Order
deriving Repr, DecidableEq

/-- The per-line stock update of checkout (src/app.py lines 674-675):
`product.stock = max(0, product.stock - qty)` and
`product.sold_count += qty`, applied to the product row with this id. -/
def decrementStock (ps : List Product) (pid : Nat) (qty : Int) : List Product :=
  ps.map (fun p =>
    if p.id = pid then
      { p with stock := max 0 (p.stock - qty), sold_count := p.sold_count + qty }
    else p)

/-- The per-item stock restore of cancellation (src/app.py lines 735-738):
`product.stock += item.quantity` for the product row with this id; a row
that no longer exists is skipped (`if product:`), which for a keyed map
update is a no-op either way. -/
def restoreStock (ps : List Product) (pid : Nat) (qty : Int) : List Product :=
  ps.map (fun p => if p.id = pid then { p with stock := p.stock + qty } else p)

/-- `used_count` bump at checkout (src/app.py lines 686-690): the coupon is
looked up by code only — without the `is_active` filter and without
re-validation — and its counter incremented. -/
def bumpCouponUsage (cs : List Coupon) (code : String) : List Coupon :=
  cs.map (fun c => if c.code = code then { c with used_count := c.used_count + 1 } else c)

/-- Embeds the committed path of `checkout` (src/app.py lines 615-694):
re-price the cart, reject only an empty priced cart, persist the order
(status `placed`, payment `pending`, totals copied from `cart_items`, a
tracking code assigned at creation, line items snapshotting name/sku/price),
decrement stock per line, and bump the session coupon's `used_count`.
`order_id`, `order_number` and `tracking` stand for the generated values. -/
def checkout (st : StoreState) (cart : List (Nat × Int)) (coupon_code : Option String)
    (now : Int) (order_id : Nat) (order_number tracking : String) :
    Option (StoreState × Order) :=
  let priced := cart_items st.products st.coupons cart coupon_code now
  let items := priced.1
  let t := priced.2
  if items.isEmpty then none
  else
    let order : Order :=
      { id := order_id, order_number := order_number, status := "placed",
        payment_status := "pending",
        subtotal := t.subtotal, tax := t.tax, shipping := t.shipping,
        discount := t.discount, coupon_code := coupon_code, total := t.grand_total,
        tracking_code := some tracking, delivered_at := none,
        items := items.map (fun l =>
          ⟨l.product.id, l.quantity, l.product.price, l.product.name, l.product.sku⟩) }
    let products' := items.foldl (fun a l => decrementStock a l.product.id l.quantity) st.products
    let coupons' :=
      match coupon_code with
      | none => st.coupons
      | some code => bumpCouponUsage st.coupons code
    some ({ products := products', coupons := coupons', orders := st.orders ++ [order] }, order)

/-- `Order.query.get(oid)`. -/
def findOrder (os : List Order) (oid : Nat) : Option Order :=
  os.find? (fun o => o.id == oid)

/-- Embeds `order_cancel` (src/app.py lines 719-742), ownership check aside:
only status `placed` or `packed` may cancel (else the request is rejected —
the `False` result models the "cannot be cancelled" path); on success the
status becomes `cancelled`, the payment status `refunded` if it was `paid`
and `cancelled` otherwise, and each line item's quantity is added back to
its product's stock. -/
def order_cancel (st : StoreState) (oid : Nat) : StoreState × Bool :=
  match findOrder st.orders oid with
  | none => (st, false)
  | some o =>
    if o.status = "placed" ∨ o.status = "packed" then
      let o2 : Order :=
        { o with
          status := "cancelled",
          payment_status := if o.payment_status = "paid" then "refunded" else "cancelled" }
      let products' := o.items.foldl (fun a it => restoreStock a it.product_id it.quantity) st.products
      ({ st with
          products := products',
          orders := st.orders.map (fun q => if q.id = oid then o2 else q) }, true)
    else (st, false)

/-- The order mutation of the admin status update (src/app.py lines
1059-1067): assign the requested status; on `shipped` generate a tracking
code only when none is set; on `delivered` stamp the delivery time and
force payment to `paid`.  `fresh` stands for the generated tracking code. -/
def adminUpdateOrder (o : Order) (newStatus : String) (fresh : String) (now : Int) : Order :=
  let o1 := { o with status := newStatus }
  let o2 :=
    if newStatus = "shipped" ∧ o1.tracking_code = none then
      { o1 with tracking_code := some fresh }
    else o1
  if newStatus = "delivered" then
    { o2 with delivered_at := some now, payment_status := "paid" }
  else o2

/-- Embeds the admin status update (src/app.py lines 1057-1069): fetch the
order by id and apply `adminUpdateOrder` to it. -/
def admin_set_status (st : StoreState) (oid : Nat) (newStatus : String)
    (fresh : String) (now : Int) : StoreState :=
  match findOrder st.orders oid with
  | none => st
  | some o =>
    { st with orders := st.orders.map (fun q =>
        if q.id = oid then adminUpdateOrder o newStatus fresh now else q) }

/-- Python's `coupon.usage_limit and coupon.used_count >= coupon.usage_limit`
(src/app.py line 561): a null or zero limit is falsy, so the usage check is
skipped. -/
def usageLimitReached (limit : Option Int) (used : Int) : Bool :=
  match limit with
  | none => false
  | some n => if n = 0 then false else decide (n ≤ used)

/-- Outcomes of the coupon-apply endpoint. -/
inductive ApplyResult
  | invalidCode
  | expired
  | usageReached
  | minPurchaseNotMet
  | applied
deriving Repr, DecidableEq

/-- Embeds `cart_coupon` (src/app.py lines 548-572), the only place the
usage limit and minimum purchase are checked: lookup by canonical code with
`is_active=True`, then the validity window, then the usage limit, then the
minimum purchase against the current cart subtotal; only then is the code
stored in the session.  `session_code` is the previously applied session
coupon (irrelevant to the subtotal, which ignores the coupon). -/
def cart_coupon (ps : List Product) (cs : List Coupon) (cart : List (Nat × Int))
    (session_code : Option String) (now : Int) (code : String) : ApplyResult :=
  match findActiveCoupon cs code with
  | none => .invalidCode
  | some coupon =>
    if now < coupon.valid_from ∨ coupon.valid_until < now then .expired
    else if usageLimitReached coupon.usage_limit coupon.used_count then .usageReached
    else if (cart_items ps cs cart session_code now).2.subtotal < coupon.min_purchase then
      .minPurchaseNotMet
    else .applied

/-- Embeds the `Address` model (src/models.py): the fields the checkout
route's address-resolution step reads for control flow (`id`, `user_id`,
`is_default`); the display-only fields that are merely formatted into the
shipping-address text are omitted. -/
structure Address where
  id : Nat
  user_id : Nat
  is_default : Bool
deriving Repr, DecidableEq

/-- `Address.query.get(address_id)` (src/app.py line 628). -/
def findAddress (as : List Address) (aid : Int) : Option Address :=
  as.find? (fun a => (a.id : Int) == aid)

/-- `current_user.addresses`: the rows of the address table belonging to
one user. -/
def userAddresses (as : List Address) (uid : Nat) : List Address :=
  as.filter (fun a => a.user_id == uid)

/-- Outcomes of the checkout route's address-resolution step. -/
inductive AddressResolution
  | invalidAddress
  | noShippingAddress
  | resolved (a : Address)
deriving Repr, DecidableEq

/-- Embeds the address resolution of the checkout route (src/app.py lines
626-648): a positive submitted `address_id` must name an existing address
owned by the user, else the attempt is rejected ("Invalid address
selected"); otherwise the user's default address, or their first one, is
used, and a user with no saved addresses is rejected ("Please add a
shipping address"). -/
def resolve_address (as : List Address) (uid : Nat) (aid : Int) : AddressResolution :=
  if 0 < aid then
    match findAddress as aid with
    | some a => if a.user_id = uid then .resolved a else .invalidAddress
    | none => .invalidAddress
  else
    match (userAddresses as uid).find? (fun a => a.is_default) with
    | some a => .resolved a
    | none =>
      match userAddresses as uid with
      | [] => .noShippingAddress
      | a :: _ => .resolved a

/-- Outcomes of the full checkout route. -/
inductive CheckoutOutcome
  | emptyCart
  | invalidAddress
  | noShippingAddress
  | placed (st2 : StoreState) (o : Order)
deriving Repr, DecidableEq

/-- Embeds the whole `checkout` route (src/app.py lines 612-699): an empty
priced cart is rejected first (lines 615-618), then the shipping address is
resolved (lines 626-648), and only then does the committed path run.  The
inner `none` arm is unreachable — the committed path fails only on an empty
priced cart, which was already ruled out — and is proved so below. -/
def checkout_route (st : StoreState) (as : List Address) (uid : Nat) (aid : Int)
    (cart : List (Nat × Int)) (coupon_code : Option String) (now : Int)
    (order_id : Nat) (order_number tracking : String) : CheckoutOutcome :=
  if (cartLines st.products cart).isEmpty then .emptyCart
  else
    match resolve_address as uid aid with
    | .invalidAddress => .invalidAddress
    | .noShippingAddress => .noShippingAddress
    | .resolved _ =>
      match checkout st cart coupon_code now order_id order_number tracking with
      | none => .emptyCart
      | some (st2, o) => .placed st2 o

/-- The stock column of the product row with the given id, when present. -/
def stockOf (ps : List Product) (pid : Nat) : Option Int :=
  (findProduct ps pid).map (fun p => p.stock)

/-- Total quantity the items of an order hold against one product id. -/
def restoredQty (items : List OrderItem) (pid : Nat) : Int :=
  ((items.filter (fun it => it.product_id == pid)).map (fun it => it.quantity)).sum

/-! ### Helper lemmas -/

theorem find?_map_pres {α : Type} (f : α → α) (p : α → Bool) (l : List α)
    (h : ∀ a, p (f a) = p a) :
    (l.map f).find? p = (l.find? p).map f := by
  induction l with
  | nil => rfl
  | cons a t ih =>
    simp only [List.map_cons, List.find?]
    rw [h a]
    cases hp : p a
    · exact ih
    · rfl

theorem findProduct_id {ps : List Product} {pid : Nat} {p : Product}
    (h : findProduct ps pid = some p) : p.id = pid := by
  have := List.find?_some h
  simpa using this

theorem findOrder_id {os : List Order} {oid : Nat} {o : Order}
    (h : findOrder os oid = some o) : o.id = oid := by
  have := List.find?_some h
  simpa using this

theorem findProduct_restoreStock (ps : List Product) (pid' : Nat) (q : Int) (pid : Nat) :
    findProduct (restoreStock ps pid' q) pid =
      (findProduct ps pid).map
        (fun p => if p.id = pid' then { p with stock := p.stock + q } else p) := by
  unfold findProduct restoreStock
  apply find?_map_pres
  intro a
  by_cases ha : a.id = pid' <;> simp [ha]

theorem findProduct_decrementStock (ps : List Product) (pid' : Nat) (q : Int) (pid : Nat) :
    findProduct (decrementStock ps pid' q) pid =
      (findProduct ps pid).map
        (fun p => if p.id = pid' then
            { p with stock := max 0 (p.stock - q), sold_count := p.sold_count + q }
          else p) := by
  unfold findProduct decrementStock
  apply find?_map_pres
  intro a
  by_cases ha : a.id = pid' <;> simp [ha]

theorem stockOf_restoreStock (ps : List Product) (pid' : Nat) (q : Int) (pid : Nat) :
    stockOf (restoreStock ps pid' q) pid =
      if pid = pid' then (stockOf ps pid).map (fun s => s + q) else stockOf ps pid := by
  unfold stockOf
  rw [findProduct_restoreStock]
  cases hf : findProduct ps pid with
  | none => simp
  | some p =>
    have hid : p.id = pid := findProduct_id hf
    by_cases hpp : pid = pid'
    · simp [hpp, hid, Option.map_some]
    · have : ¬ p.id = pid' := by rw [hid]; exact hpp
      simp [hpp, this]

theorem stockOf_restore_foldl (items : List OrderItem) (ps : List Product) (pid : Nat) :
    stockOf (items.foldl (fun a it => restoreStock a it.product_id it.quantity) ps) pid =
      (stockOf ps pid).map (fun s => s + restoredQty items pid) := by
  induction items generalizing ps with
  | nil =>
    cases hf : stockOf ps pid <;> simp [restoredQty, hf]
  | cons it rest ih =>
    simp only [List.foldl_cons]
    rw [ih, stockOf_restoreStock]
    by_cases hpp : pid = it.product_id
    · have hb : (it.product_id == pid) = true := by simp [hpp]
      cases hf : stockOf ps pid <;>
        simp [restoredQty, hb, hf, hpp, add_assoc]
    · have hb : (it.product_id == pid) = false := by
        simp only [beq_eq_false_iff_ne, ne_eq]
        intro hc; exact hpp hc.symm
      cases hf : stockOf ps pid <;> simp [restoredQty, hb, hf, hpp]

theorem cart_items_discount_eq (ps : List Product) (cs : List Coupon)
    (cart : List (Nat × Int)) (code : String) (now : Int) (c : Coupon)
    (hfind : findActiveCoupon cs code = some c) :
    (cart_items ps cs cart (some code) now).2.discount =
      couponDiscountAt c now (cart_items ps cs cart (some code) now).2.subtotal := by
  show couponSessionDiscount cs (some code) now _ = _
  simp only [couponSessionDiscount, hfind]
  rfl

theorem checkout_eq_none_iff (st : StoreState) (cart : List (Nat × Int))
    (cc : Option String) (now : Int) (oid : Nat) (onum tc : String) :
    checkout st cart cc now oid onum tc = none ↔ cartLines st.products cart = [] := by
  simp only [checkout]
  split
  · rename_i he
    simp only [List.isEmpty_iff] at he
    simpa using he
  · rename_i he
    simp only [List.isEmpty_iff] at he
    constructor
    · intro hc
      exact absurd hc (by simp)
    · intro hc
      exact absurd hc he

/-- All product rows hold non-negative stock. -/
def stocksNonneg (ps : List Product) : Prop := ∀ p ∈ ps, 0 ≤ p.stock

theorem stocksNonneg_decrementStock {ps : List Product} (pid : Nat) (q : Int)
    (h : stocksNonneg ps) : stocksNonneg (decrementStock ps pid q) := by
  intro p hp
  rcases List.mem_map.1 hp with ⟨p0, hp0, rfl⟩
  by_cases hid : p0.id = pid
  · simp [hid, le_max_left]
  · simpa [hid] using h p0 hp0

theorem stocksNonneg_restoreStock {ps : List Product} (pid : Nat) {q : Int}
    (hq : 0 ≤ q) (h : stocksNonneg ps) : stocksNonneg (restoreStock ps pid q) := by
  intro p hp
  rcases List.mem_map.1 hp with ⟨p0, hp0, rfl⟩
  by_cases hid : p0.id = pid
  · simpa [hid] using add_nonneg (h p0 hp0) hq
  · simpa [hid] using h p0 hp0

theorem stocksNonneg_dec_foldl (ls : List CartLine) (ps : List Product)
    (h : stocksNonneg ps) :
    stocksNonneg (ls.foldl (fun a l => decrementStock a l.product.id l.quantity) ps) := by
  induction ls generalizing ps with
  | nil => exact h
  | cons l rest ih =>
    exact ih _ (stocksNonneg_decrementStock _ _ h)

theorem stocksNonneg_restore_foldl (items : List OrderItem) (ps : List Product)
    (hq : ∀ it ∈ items, 0 ≤ it.quantity) (h : stocksNonneg ps) :
    stocksNonneg (items.foldl (fun a it => restoreStock a it.product_id it.quantity) ps) := by
  induction items generalizing ps with
  | nil => exact h
  | cons it rest ih =>
    exact ih _ (fun x hx => hq x (List.mem_cons_of_mem _ hx))
      (stocksNonneg_restoreStock _ (hq it (List.mem_cons_self _ _)) h)

theorem round2_eq_roundHalfUp2 (x : ℚ) (h : 100 * x - (⌊100 * x⌋ : ℚ) ≠ 1/2) :
    round2 x = roundHalfUp2 x := by
  unfold round2 roundHalfUp2
  set y : ℚ := 100 * x with hy
  set n : Int := ⌊y⌋ with hn
  have hfl : (n : ℚ) ≤ y := Int.floor_le y
  have hfu : y < (n : ℚ) + 1 := Int.lt_floor_add_one y
  by_cases hlt : y - (n : ℚ) < 1/2
  · have hfloor : ⌊y + 1/2⌋ = n := by
      rw [Int.floor_eq_iff]
      refine ⟨by linarith, by linarith⟩
    rw [if_pos hlt, hfloor]
  · have hge : 1/2 ≤ y - (n : ℚ) := le_of_not_lt hlt
    have hgt : 1/2 < y - (n : ℚ) := lt_of_le_of_ne hge (fun hc => h hc.symm)
    have hfloor : ⌊y + 1/2⌋ = n + 1 := by
      rw [Int.floor_eq_iff]
      constructor
      · push_cast
        linarith
      · push_cast
        linarith
    rw [if_neg hlt, if_pos hgt, hfloor]
    push_cast
    ring

/-! ### C1 -/

/-- C1: every computed pricing result — the cart view (`cart_items`), the
order persisted by `checkout`, and `Order.recalc_total` — satisfies
`total = subtotal + tax + shipping - discount`. -/
theorem C1_total_invariant :
    (∀ ps cs cart cc now,
        (cart_items ps cs cart cc now).2.grand_total =
          (cart_items ps cs cart cc now).2.subtotal + (cart_items ps cs cart cc now).2.tax +
            (cart_items ps cs cart cc now).2.shipping -
              (cart_items ps cs cart cc now).2.discount) ∧
    (∀ st cart cc now oid onum tc st2 o,
        checkout st cart cc now oid onum tc = some (st2, o) →
          o.total = o.subtotal + o.tax + o.shipping - o.discount) ∧
    (∀ o : Order, o.recalc_total.total =
        o.recalc_total.subtotal + o.recalc_total.tax + o.recalc_total.shipping -
          o.recalc_total.discount) := by
  refine ⟨fun _ _ _ _ _ => rfl, ?_, fun _ => rfl⟩
  intro st cart cc now oid onum tc st2 o h
  simp only [checkout] at h
  split at h
  · exact Option.noConfusion h
  · injection h with h
    injection h with hst ho
    subst ho
    rfl

def C1ps : List Product := [⟨1, "Amp", "SKU-1", 100, 3, 0, true⟩]

def C1st : StoreState := ⟨C1ps, [], []⟩

def C1order : Order :=
  ⟨7, "MZ1", "placed", "pending", 200, 36, 50, 0, none, 286, some "T1", none,
    [⟨1, 2, 100, "Amp", "SKU-1"⟩]⟩

def C1st2 : StoreState :=
  ⟨[⟨1, "Amp", "SKU-1", 100, 1, 2, true⟩], [], [C1order]⟩

theorem C1_total_invariant_witness :
    checkout C1st [(1, 2)] none 0 7 "MZ1" "T1" = some (C1st2, C1order) ∧
      C1order.total = C1order.subtotal + C1order.tax + C1order.shipping - C1order.discount := by
  have hrun : checkout C1st [(1, 2)] none 0 7 "MZ1" "T1" = some (C1st2, C1order) := by
    norm_num [C1st, C1ps, C1st2, C1order, checkout, cart_items, cartLines, priceLine,
      findProduct, List.find?, List.filterMap, List.isEmpty, min_def, couponSessionDiscount,
      round2, decrementStock]
  exact ⟨hrun, C1_total_invariant.2.1 C1st [(1, 2)] none 0 7 "MZ1" "T1" C1st2 C1order hrun⟩

/-! ### C4 -/

def C4ps : List Product := [⟨1, "Pick", "SKU-4", 1/4, 1, 0, true⟩]

/-- C4 counterexample: at subtotal 0.25 the exact tax base is 0.045, an
exact half-cent tie; the code's `round` (ties to even — and the binary
float for `0.25 * 0.18` in fact falls just below the tie, rounding the same
way) yields tax 0.04, while the claimed half-up rounding yields 0.05. -/
theorem C4_counterexample :
    (cart_items C4ps [] [(1, 1)] none 0).2.subtotal = 1/4 ∧
    (cart_items C4ps [] [(1, 1)] none 0).2.tax = 1/25 ∧
    roundHalfUp2 ((1/4 : ℚ) * (18/100)) = 1/20 ∧
    (cart_items C4ps [] [(1, 1)] none 0).2.tax ≠
      roundHalfUp2 ((cart_items C4ps [] [(1, 1)] none 0).2.subtotal * (18/100)) := by
  refine ⟨?_, ?_, ?_, ?_⟩ <;>
    norm_num [C4ps, cart_items, cartLines, priceLine, findProduct, List.find?,
      List.filterMap, min_def, couponSessionDiscount, round2, roundHalfUp2]

/-- C4 amended: the tax equals `subtotal * 0.18` rounded to 2 decimal places
with ties to the even hundredth (Python's `round`), which agrees with
half-up rounding whenever the scaled value is not an exact half-way tie. -/
theorem C4_amended :
    (∀ ps cs cart cc now,
        (cart_items ps cs cart cc now).2.tax =
          round2 ((cart_items ps cs cart cc now).2.subtotal * (18/100))) ∧
    (∀ x : ℚ, 100 * x - (⌊100 * x⌋ : ℚ) ≠ 1/2 → round2 x = roundHalfUp2 x) :=
  ⟨fun _ _ _ _ _ => rfl, fun x h => round2_eq_roundHalfUp2 x h⟩

theorem C4_amended_witness :
    (100 * (3/10 : ℚ) - (⌊100 * (3/10 : ℚ)⌋ : ℚ) ≠ 1/2) ∧
      round2 (3/10) = roundHalfUp2 (3/10) :=
  ⟨by norm_num, C4_amended.2 (3/10) (by norm_num)⟩

/-! ### C7 -/

def C7ps : List Product := [⟨1, "Zinc", "SKU-7", 10, 5, 0, true⟩]

/-- C7 counterexample: an active product with stock 5 and requested
quantity 2 is priced at quantity 2, not at `min(2, 5, 1) = 1` as the claim
states. -/
theorem C7_counterexample :
    ((cart_items C7ps [] [(1, 2)] none 0).1.map (fun l => l.quantity)) = [2] ∧
      ¬ (2 : Int) = min (min 2 5) 1 := by
  constructor
  · norm_num [C7ps, cart_items, cartLines, priceLine, findProduct, List.find?,
      List.filterMap, min_def]
  · norm_num

/-- C7 amended: the quantity actually priced for a line over an active
product with positive stock is `min(requestedQty, currentStock)` (no clamp
to 1); lines over missing, inactive or zero-stock products are excluded;
hence no priced quantity exceeds the product's stock. -/
theorem C7_amended :
    (∀ ps pid qty p, findProduct ps pid = some p → p.is_active = true → 0 < p.stock →
        (priceLine ps pid qty).map (fun l => l.quantity) = some (min qty p.stock)) ∧
    (∀ ps pid qty p, findProduct ps pid = some p → (p.is_active = false ∨ p.stock ≤ 0) →
        priceLine ps pid qty = none) ∧
    (∀ ps pid qty, findProduct ps pid = none → priceLine ps pid qty = none) ∧
    (∀ ps cart l, l ∈ cartLines ps cart → l.quantity ≤ l.product.stock) := by
  refine ⟨?_, ?_, ?_, ?_⟩
  · intro ps pid qty p hf ha hs
    simp [priceLine, hf, ha, hs]
  · intro ps pid qty p hf hbad
    simp only [priceLine, hf]
    rw [if_neg]
    rintro ⟨ha, hs⟩
    rcases hbad with hb | hb
    · rw [hb] at ha; exact Bool.noConfusion ha
    · exact absurd hs (not_lt.2 hb)
  · intro ps pid qty hf
    simp [priceLine, hf]
  · intro ps cart l hl
    rcases List.mem_filterMap.1 hl with ⟨a, _, ha⟩
    cases hf : findProduct ps a.1 with
    | none => simp [priceLine, hf] at ha
    | some p =>
      simp only [priceLine, hf] at ha
      split at ha
      · simp only [Option.some.injEq] at ha
        rw [← ha]
        exact min_le_right _ _
      · exact absurd ha (by simp)

theorem C7_amended_witness :
    findProduct C7ps 1 = some ⟨1, "Zinc", "SKU-7", 10, 5, 0, true⟩ ∧
      (⟨1, "Zinc", "SKU-7", 10, 5, 0, true⟩ : Product).is_active = true ∧
      0 < (⟨1, "Zinc", "SKU-7", 10, 5, 0, true⟩ : Product).stock ∧
      (priceLine C7ps 1 2).map (fun l => l.quantity) =
        some (min 2 (⟨1, "Zinc", "SKU-7", 10, 5, 0, true⟩ : Product).stock) := by
  have hf : findProduct C7ps 1 = some ⟨1, "Zinc", "SKU-7", 10, 5, 0, true⟩ := by
    norm_num [C7ps, findProduct, List.find?]
  exact ⟨hf, rfl, by norm_num,
    C7_amended.1 C7ps 1 2 ⟨1, "Zinc", "SKU-7", 10, 5, 0, true⟩ hf rfl (by norm_num)⟩

/-! ### C3 -/

/-- C3: starting from non-negative stock, both core inventory mutations
preserve `stock ≥ 0`: the checkout decrement floors at zero
(`max(0, stock - qty)`), and the cancellation restore adds the (non-negative)
ordered quantities back; moreover checkout only ever persists non-negative
item quantities when the cart quantities are non-negative, which is what
makes the restore hypothesis hold for orders the system itself created. -/
theorem C3_stock_nonneg :
    (∀ st cart cc now oid onum tc st2 o,
        stocksNonneg st.products →
        checkout st cart cc now oid onum tc = some (st2, o) →
        stocksNonneg st2.products) ∧
    (∀ st oid st2 b,
        stocksNonneg st.products →
        (∀ o ∈ st.orders, ∀ it ∈ o.items, 0 ≤ it.quantity) →
        order_cancel st oid = (st2, b) →
        stocksNonneg st2.products) ∧
    (∀ st cart cc now oid onum tc st2 o,
        (∀ l ∈ cart, 0 ≤ l.2) →
        checkout st cart cc now oid onum tc = some (st2, o) →
        ∀ it ∈ o.items, 0 ≤ it.quantity) := by
  refine ⟨?_, ?_, ?_⟩
  · intro st cart cc now oid onum tc st2 o hnn h
    simp only [checkout] at h
    split at h
    · exact Option.noConfusion h
    · injection h with h
      injection h with hst ho
      rw [← hst]
      exact stocksNonneg_dec_foldl _ _ hnn
  · intro st oid st2 b hnn hq h
    cases hf : findOrder st.orders oid with
    | none =>
      simp only [order_cancel, hf] at h
      injection h with hst hb
      rw [← hst]
      exact hnn
    | some o =>
      simp only [order_cancel, hf] at h
      split at h
      · injection h with hst hb
        rw [← hst]
        exact stocksNonneg_restore_foldl _ _
          (hq o (List.mem_of_find?_eq_some hf)) hnn
      · injection h with hst hb
        rw [← hst]
        exact hnn
  · intro st cart cc now oid onum tc st2 o hcart h
    simp only [checkout] at h
    split at h
    · exact Option.noConfusion h
    · injection h with h
      injection h with hst ho
      subst ho
      intro it hit
      rcases List.mem_map.1 hit with ⟨l, hl, rfl⟩
      rcases List.mem_filterMap.1 hl with ⟨a, hmem, ha⟩
      cases hf : findProduct st.products a.1 with
      | none => simp [priceLine, hf] at ha
      | some p =>
        simp only [priceLine, hf] at ha
        split at ha
        · rename_i hcond
          simp only [Option.some.injEq] at ha
          rw [← ha]
          exact le_min (hcart a hmem) (le_of_lt hcond.2)
        · exact absurd ha (by simp)

def C3ps : List Product := [⟨1, "Coil", "SKU-3", 40, 2, 4, true⟩]

def C3order : Order :=
  ⟨7, "MZ3", "placed", "paid", 80, 72/5, 50, 0, none, 722/5, some "T3", none,
    [⟨1, 2, 40, "Coil", "SKU-3"⟩]⟩

def C3st : StoreState := ⟨C3ps, [], [C3order]⟩

theorem C3_stock_nonneg_witness :
    stocksNonneg C3st.products ∧
      (∀ o ∈ C3st.orders, ∀ it ∈ o.items, 0 ≤ it.quantity) ∧
      stocksNonneg (order_cancel C3st 7).1.products := by
  have h1 : stocksNonneg C3st.products := by
    intro p hp
    simp only [C3st, C3ps, List.mem_singleton] at hp
    rw [hp]
    norm_num
  have h2 : ∀ o ∈ C3st.orders, ∀ it ∈ o.items, 0 ≤ it.quantity := by
    intro o ho it hit
    simp only [C3st, List.mem_singleton] at ho
    rw [ho] at hit
    simp only [C3order, List.mem_singleton] at hit
    rw [hit]
    norm_num
  exact ⟨h1, h2, C3_stock_nonneg.2.1 C3st 7 (order_cancel C3st 7).1 (order_cancel C3st 7).2
    h1 h2 rfl⟩

/-! ### C5 -/

def C5ps : List Product := [⟨1, "Stand", "SKU-5", 100, 1, 0, true⟩]

def C5cs : List Coupon := [⟨"C5", "percentage", 150, 0, some 200, none, 0, 0, 10, true⟩]

/-- C5 counterexample: a valid percentage coupon with discountValue 150 and
maxDiscount 200 applied to subtotal 100 yields discount 150, which exceeds
the subtotal — refuting the claim's "the discount never exceeds the
subtotal". -/
theorem C5_counterexample :
    (cart_items C5ps C5cs [(1, 1)] (some "C5") 5).2.subtotal = 100 ∧
    (cart_items C5ps C5cs [(1, 1)] (some "C5") 5).2.discount = 150 ∧
    (cart_items C5ps C5cs [(1, 1)] (some "C5") 5).2.subtotal <
      (cart_items C5ps C5cs [(1, 1)] (some "C5") 5).2.discount := by
  refine ⟨?_, ?_, ?_⟩ <;>
    norm_num [C5ps, C5cs, cart_items, cartLines, priceLine, findProduct, List.find?,
      List.filterMap, min_def, couponSessionDiscount, findActiveCoupon, couponDiscountAt,
      pyOrQ]

/-- C5 amended: for a coupon that passes the lookup and the validity window
the discount follows the claimed formulas, with "maxDiscount if set" meaning
set and non-zero (Python truthiness); the discount never exceeds the
subtotal for fixed coupons, for percentage coupons whose discountValue is at
most 100, and for percentage coupons without an effective cap — but it can
exceed the subtotal for a percentage coupon with discountValue > 100 and a
large maxDiscount. -/
theorem C5_amended :
    (∀ ps cs cart code now c, findActiveCoupon cs code = some c →
        (cart_items ps cs cart (some code) now).2.discount =
          couponDiscountAt c now (cart_items ps cs cart (some code) now).2.subtotal) ∧
    (∀ c now s, c.valid_from ≤ now → now ≤ c.valid_until →
        couponDiscountAt c now s =
          if c.discount_type = "percentage" then
            min (s * c.discount_value / 100) (pyOrQ c.max_discount s)
          else min c.discount_value s) ∧
    (∀ c now s, 0 ≤ s →
        (c.discount_type ≠ "percentage" ∨ c.discount_value ≤ 100 ∨
          c.max_discount = none ∨ c.max_discount = some 0) →
        couponDiscountAt c now s ≤ s) := by
  refine ⟨?_, ?_, ?_⟩
  · intro ps cs cart code now c hfind
    exact cart_items_discount_eq ps cs cart code now c hfind
  · intro c now s h1 h2
    unfold couponDiscountAt
    rw [if_pos ⟨h1, h2⟩]
  · intro c now s hs hsafe
    unfold couponDiscountAt
    split
    · split
      · rename_i htype
        rcases hsafe with hb | hb | hb | hb
        · exact absurd htype hb
        · refine le_trans (min_le_left _ _) ?_
          have := mul_le_mul_of_nonneg_left hb hs
          linarith
        · simp only [hb, pyOrQ]
          exact min_le_right _ _
        · simp only [hb, pyOrQ, if_pos rfl]
          exact min_le_right _ _
      · exact min_le_right _ _
    · exact hs

def C5wcs : List Coupon := [⟨"C5W", "fixed", 30, 0, none, none, 0, 0, 10, true⟩]

theorem C5_amended_witness :
    findActiveCoupon C5wcs "C5W" = some ⟨"C5W", "fixed", 30, 0, none, none, 0, 0, 10, true⟩ ∧
      (cart_items C5ps C5wcs [(1, 1)] (some "C5W") 5).2.discount =
        couponDiscountAt ⟨"C5W", "fixed", 30, 0, none, none, 0, 0, 10, true⟩ 5
          (cart_items C5ps C5wcs [(1, 1)] (some "C5W") 5).2.subtotal ∧
      couponDiscountAt ⟨"C5W", "fixed", 30, 0, none, none, 0, 0, 10, true⟩ 5 100 ≤ 100 := by
  have hfind : findActiveCoupon C5wcs "C5W" =
      some ⟨"C5W", "fixed", 30, 0, none, none, 0, 0, 10, true⟩ := by
    norm_num [C5wcs, findActiveCoupon, List.find?]
  exact ⟨hfind,
    C5_amended.1 C5ps C5wcs [(1, 1)] "C5W" 5 _ hfind,
    C5_amended.2.2 ⟨"C5W", "fixed", 30, 0, none, none, 0, 0, 10, true⟩ 5 100 (by norm_num)
      (Or.inl (by decide))⟩

/-! ### C10 -/

/-- C10: a percentage coupon whose maxDiscount is exactly 0 is treated as
having no cap: `coupon.max_discount or subtotal` evaluates to the subtotal
because 0 is falsy, so the discount is `min(subtotal * discountValue / 100,
subtotal)` rather than 0. -/
theorem C10_zero_cap_ignored :
    ∀ ps cs cart code now c, findActiveCoupon cs code = some c →
      c.valid_from ≤ now → now ≤ c.valid_until →
      c.discount_type = "percentage" → c.max_discount = some 0 →
      (cart_items ps cs cart (some code) now).2.discount =
        min ((cart_items ps cs cart (some code) now).2.subtotal * c.discount_value / 100)
          (cart_items ps cs cart (some code) now).2.subtotal := by
  intro ps cs cart code now c hfind h1 h2 htype hmax
  rw [cart_items_discount_eq ps cs cart code now c hfind]
  unfold couponDiscountAt
  rw [if_pos ⟨h1, h2⟩, htype, if_pos rfl, hmax]
  simp [pyOrQ]

def C10cs : List Coupon := [⟨"C10", "percentage", 50, 0, some 0, none, 0, 0, 10, true⟩]

theorem C10_zero_cap_ignored_witness :
    findActiveCoupon C10cs "C10" =
        some ⟨"C10", "percentage", 50, 0, some 0, none, 0, 0, 10, true⟩ ∧
      (cart_items C5ps C10cs [(1, 1)] (some "C10") 5).2.discount =
        min ((cart_items C5ps C10cs [(1, 1)] (some "C10") 5).2.subtotal * 50 / 100)
          (cart_items C5ps C10cs [(1, 1)] (some "C10") 5).2.subtotal := by
  have hfind : findActiveCoupon C10cs "C10" =
      some ⟨"C10", "percentage", 50, 0, some 0, none, 0, 0, 10, true⟩ := by
    norm_num [C10cs, findActiveCoupon, List.find?]
  exact ⟨hfind, C10_zero_cap_ignored C5ps C10cs [(1, 1)] "C10" 5 _ hfind (by norm_num)
    (by norm_num) rfl rfl⟩

/-! ### C6 -/

def C6ps : List Product := [⟨1, "Hinge", "SKU-6", 100, 1, 0, true⟩]

def C6cs : List Coupon := [⟨"C6", "percentage", 10, 1000, none, some 1, 1, 0, 10, true⟩]

/-- C6 counterexample: an active, in-window coupon with usageLimit 1 and
usedCount 1 (usage limit reached) and minPurchase 1000 (not met by the
subtotal of 100) still yields discount 10 ≠ 0 at totals-computation time,
because `cart_items` checks only `is_active` and the validity window. -/
theorem C6_counterexample :
    usageLimitReached (some 1) 1 = true ∧
    (cart_items C6ps C6cs [(1, 1)] (some "C6") 5).2.subtotal = 100 ∧
    (100 : ℚ) < 1000 ∧
    (cart_items C6ps C6cs [(1, 1)] (some "C6") 5).2.discount = 10 ∧
    (10 : ℚ) ≠ 0 := by
  refine ⟨rfl, ?_, by norm_num, ?_, by norm_num⟩ <;>
    norm_num [C6ps, C6cs, cart_items, cartLines, priceLine, findProduct, List.find?,
      List.filterMap, min_def, couponSessionDiscount, findActiveCoupon, couponDiscountAt,
      pyOrQ]

/-- C6 amended: at totals-computation time (cart view, and checkout which
reuses it) only `isActive` and the validity window are checked — the
discount is invariant under changes to `usedCount`, `usageLimit` and
`minPurchase`; those two rules are enforced only by the coupon-apply
endpoint (`cart_coupon`), and checkout bumps the session coupon's
`usedCount` without re-validating it. -/
theorem C6_amended :
    (∀ c now s x y z,
        couponDiscountAt { c with used_count := x, usage_limit := y, min_purchase := z } now s =
          couponDiscountAt c now s) ∧
    (∀ ps cs cart sc now code c, findActiveCoupon cs code = some c →
        ¬ (now < c.valid_from ∨ c.valid_until < now) →
        usageLimitReached c.usage_limit c.used_count = true →
        cart_coupon ps cs cart sc now code = .usageReached) ∧
    (∀ st cart code now oid onum tc st2 o,
        checkout st cart (some code) now oid onum tc = some (st2, o) →
        st2.coupons = bumpCouponUsage st.coupons code) := by
  refine ⟨?_, ?_, ?_⟩
  · intro c now s x y z
    rfl
  · intro ps cs cart sc now code c hfind hwin husage
    simp only [cart_coupon, hfind]
    rw [if_neg hwin, if_pos husage]
  · intro st cart code now oid onum tc st2 o h
    simp only [checkout] at h
    split at h
    · exact Option.noConfusion h
    · injection h with h
      injection h with hst ho
      rw [← hst]

theorem C6_amended_witness :
    findActiveCoupon C6cs "C6" =
        some ⟨"C6", "percentage", 10, 1000, none, some 1, 1, 0, 10, true⟩ ∧
      ¬ ((5 : Int) < 0 ∨ (10 : Int) < 5) ∧
      usageLimitReached (some 1) 1 = true ∧
      cart_coupon C6ps C6cs [(1, 1)] none 5 "C6" = .usageReached := by
  have hfind : findActiveCoupon C6cs "C6" =
      some ⟨"C6", "percentage", 10, 1000, none, some 1, 1, 0, 10, true⟩ := by
    norm_num [C6cs, findActiveCoupon, List.find?]
  have hwin : ¬ ((5 : Int) < 0 ∨ (10 : Int) < 5) := by norm_num
  exact ⟨hfind, hwin, rfl,
    C6_amended.2.1 C6ps C6cs [(1, 1)] none 5 "C6" _ hfind hwin rfl⟩

/-! ### C8 -/

/-- C8: cancellation succeeds exactly from `placed` or `packed`: it sets the
status to `cancelled`, the payment status to `refunded` if it was `paid` and
to `cancelled` otherwise, and adds each line item's quantity back to its
product's stock exactly once (the final stock of every product id is the old
stock plus the total quantity the order's items hold against that id); from
any other status — including an already-cancelled order — the request is
rejected and the state is returned unchanged. -/
theorem C8_cancel :
    (∀ st oid o, findOrder st.orders oid = some o →
        (o.status = "placed" ∨ o.status = "packed") →
        (order_cancel st oid).2 = true ∧
        findOrder (order_cancel st oid).1.orders oid = some
          { o with
            status := "cancelled",
            payment_status := if o.payment_status = "paid" then "refunded" else "cancelled" } ∧
        (∀ pid, stockOf (order_cancel st oid).1.products pid =
            (stockOf st.products pid).map (fun s => s + restoredQty o.items pid)) ∧
        (order_cancel st oid).1.coupons = st.coupons) ∧
    (∀ st oid o, findOrder st.orders oid = some o →
        ¬ (o.status = "placed" ∨ o.status = "packed") →
        order_cancel st oid = (st, false)) := by
  constructor
  · intro st oid o hfind hstat
    have hid : o.id = oid := findOrder_id hfind
    have hcancel : order_cancel st oid =
        ({ products := o.items.foldl (fun a it => restoreStock a it.product_id it.quantity)
              st.products,
           coupons := st.coupons,
           orders := st.orders.map (fun q =>
             if q.id = oid then
               { o with
                 status := "cancelled",
                 payment_status :=
                   if o.payment_status = "paid" then "refunded" else "cancelled" }
             else q) }, true) := by
      simp only [order_cancel, hfind]
      rw [if_pos hstat]
    refine ⟨by rw [hcancel], ?_, ?_, by rw [hcancel]⟩
    · rw [hcancel]
      show findOrder (st.orders.map _) oid = _
      unfold findOrder
      rw [find?_map_pres _ _ _ ?pres]
      case pres =>
        intro a
        by_cases ha : a.id = oid
        · simp [ha, hid]
        · simp [ha]
      show (findOrder st.orders oid).map _ = _
      rw [hfind]
      simp [hid]
    · intro pid
      rw [hcancel]
      exact stockOf_restore_foldl o.items st.products pid
  · intro st oid o hfind hstat
    simp only [order_cancel, hfind]
    rw [if_neg hstat]

def C8order : Order :=
  ⟨7, "MZ8", "placed", "paid", 80, 72/5, 50, 0, none, 722/5, none, none,
    [⟨1, 2, 40, "Coil", "SKU-3"⟩]⟩

def C8st : StoreState := ⟨[⟨1, "Coil", "SKU-3", 40, 1, 4, true⟩], [], [C8order]⟩

theorem C8_cancel_witness :
    findOrder C8st.orders 7 = some C8order ∧
      (C8order.status = "placed" ∨ C8order.status = "packed") ∧
      (order_cancel C8st 7).2 = true ∧
      findOrder (order_cancel C8st 7).1.orders 7 = some
        { C8order with
          status := "cancelled",
          payment_status :=
            if C8order.payment_status = "paid" then "refunded" else "cancelled" } ∧
      stockOf (order_cancel C8st 7).1.products 1 =
        (stockOf C8st.products 1).map (fun s => s + restoredQty C8order.items 1) := by
  have hfind : findOrder C8st.orders 7 = some C8order := by
    norm_num [C8st, C8order, findOrder, List.find?]
  have hstat : C8order.status = "placed" ∨ C8order.status = "packed" := Or.inl rfl
  have hmain := C8_cancel.1 C8st 7 C8order hfind hstat
  exact ⟨hfind, hstat, hmain.1, hmain.2.1, hmain.2.2.1 1⟩

/-! ### C9 -/

theorem adminUpdateOrder_id (o : Order) (ns fresh : String) (now : Int) :
    (adminUpdateOrder o ns fresh now).id = o.id := by
  by_cases hd : ns = "delivered" <;>
    by_cases hsh : ns = "shipped" ∧ o.tracking_code = none <;>
      simp [adminUpdateOrder, hd, hsh]

theorem adminUpdateOrder_tracking (o : Order) (ns fresh : String) (now : Int) :
    (adminUpdateOrder o ns fresh now).tracking_code =
      if ns = "shipped" ∧ o.tracking_code = none then some fresh
      else o.tracking_code := by
  by_cases hd : ns = "delivered" <;>
    by_cases hsh : ns = "shipped" ∧ o.tracking_code = none <;>
      simp [adminUpdateOrder, hd, hsh]

def C9ps : List Product := [⟨1, "Bolt", "SKU-9", 60, 4, 0, true⟩]

def C9st : StoreState := ⟨C9ps, [], []⟩

/-- C9 counterexample: the order persisted by checkout already carries a
tracking code while its status is still `placed` — the tracking code is not
null from placement until the first transition into `shipped`. -/
theorem C9_counterexample :
    ((checkout C9st [(1, 1)] none 0 7 "MZ9" "TRK9").map
        (fun r => (r.2.status, r.2.tracking_code))) = some ("placed", some "TRK9") ∧
      (some "TRK9" : Option String) ≠ none := by
  constructor
  · norm_num [C9st, C9ps, checkout, cart_items, cartLines, priceLine, findProduct,
      List.find?, List.filterMap, List.isEmpty, min_def, couponSessionDiscount, round2,
      decrementStock]
  · exact Option.some_ne_none _

/-- C9 amended: `checkout` assigns a tracking code to every order it creates
(at status `placed`); the admin transition into `shipped` generates a fresh
tracking code only when none is set and never overwrites an existing one,
and transitions into other statuses leave the tracking code unchanged. -/
theorem C9_amended :
    (∀ st cart cc now oid onum tc st2 o,
        checkout st cart cc now oid onum tc = some (st2, o) →
        o.status = "placed" ∧ o.tracking_code = some tc) ∧
    (∀ st oid ns fresh now,
        (findOrder (admin_set_status st oid ns fresh now).orders oid).map
            (fun o => o.tracking_code) =
          (findOrder st.orders oid).map (fun o =>
            if ns = "shipped" ∧ o.tracking_code = none then some fresh
            else o.tracking_code)) := by
  constructor
  · intro st cart cc now oid onum tc st2 o h
    simp only [checkout] at h
    split at h
    · exact Option.noConfusion h
    · injection h with h
      injection h with hst ho
      subst ho
      exact ⟨rfl, rfl⟩
  · intro st oid ns fresh now
    cases hf : findOrder st.orders oid with
    | none => simp [admin_set_status, hf]
    | some o =>
      have hid : o.id = oid := findOrder_id hf
      have hpres : ∀ a : Order,
          ((if a.id = oid then adminUpdateOrder o ns fresh now else a).id == oid) =
            (a.id == oid) := by
        intro a
        by_cases ha : a.id = oid
        · simp [ha, adminUpdateOrder_id, hid]
        · simp [ha]
      simp only [admin_set_status, hf]
      unfold findOrder
      rw [find?_map_pres _ _ _ hpres]
      have hfind2 : st.orders.find? (fun q => q.id == oid) = some o := hf
      rw [hfind2]
      simp only [Option.map_some']
      rw [if_pos hid]
      rw [adminUpdateOrder_tracking]

def C9worder : Order :=
  ⟨7, "MZ9W", "placed", "pending", 60, 54/5, 50, 0, none, 604/5, some "TRK9W", none,
    [⟨1, 1, 60, "Bolt", "SKU-9"⟩]⟩

def C9wst2 : StoreState :=
  ⟨[⟨1, "Bolt", "SKU-9", 60, 3, 1, true⟩], [], [C9worder]⟩

theorem C9_amended_witness :
    checkout C9st [(1, 1)] none 0 7 "MZ9W" "TRK9W" = some (C9wst2, C9worder) ∧
      C9worder.status = "placed" ∧ C9worder.tracking_code = some "TRK9W" := by
  have hrun : checkout C9st [(1, 1)] none 0 7 "MZ9W" "TRK9W" = some (C9wst2, C9worder) := by
    norm_num [C9st, C9ps, C9wst2, C9worder, checkout, cart_items, cartLines, priceLine,
      findProduct, List.find?, List.filterMap, List.isEmpty, min_def,
      couponSessionDiscount, round2, decrementStock]
  exact ⟨hrun, C9_amended.1 C9st [(1, 1)] none 0 7 "MZ9W" "TRK9W" C9wst2 C9worder hrun⟩

/-! ### C2 -/

def C2ps : List Product := [⟨1, "Mesh", "SKU-2", 100, 3, 0, true⟩]

def C2cs : List Coupon := [⟨"C2", "percentage", 10, 0, none, none, 0, 0, 10, true⟩]

def C2st : StoreState := ⟨C2ps, C2cs, []⟩

/-- C2 counterexample: a checkout whose single line requests quantity 5
against stock 3 does not fail with InsufficientStock — it succeeds, persists
one OrderItem with the clamped quantity 3, drops the product's stock to 0
and raises its soldCount to 3, and increments the applied coupon's
usedCount to 1. -/
theorem C2_counterexample :
    (3 : Int) < 5 ∧
    ((checkout C2st [(1, 5)] (some "C2") 5 7 "MZ2" "T2").map
        (fun r => (r.2.items.map (fun it => it.quantity),
          r.1.products.map (fun p => (p.stock, p.sold_count)),
          r.1.coupons.map (fun c => c.used_count)))) =
      some ([3], [(0, 3)], [1]) := by
  constructor
  · norm_num
  · norm_num [C2st, C2ps, C2cs, checkout, cart_items, cartLines, priceLine, findProduct,
      List.find?, List.filterMap, List.isEmpty, min_def, couponSessionDiscount,
      findActiveCoupon, couponDiscountAt, pyOrQ, round2, decrementStock, bumpCouponUsage]

/-- C2 amended: checkout never fails for insufficient stock.  The route
places an order exactly when the priced cart is nonempty and the shipping
address resolves — its rejections are the empty cart and the two
address-resolution failures, never a stock shortfall — and on success every
persisted order item's quantity was clamped at pricing time to at most the
product's then-current stock (the per-line decrement then floors at zero),
so no decrement ever exceeds the stock that was read. -/
theorem C2_amended :
    (∀ st as uid aid cart cc now oid onum tc,
        (∃ st2 o, checkout_route st as uid aid cart cc now oid onum tc =
            CheckoutOutcome.placed st2 o) ↔
          (cartLines st.products cart ≠ [] ∧
            ∃ a, resolve_address as uid aid = AddressResolution.resolved a)) ∧
    (∀ st cart cc now oid onum tc st2 o,
        checkout st cart cc now oid onum tc = some (st2, o) →
        ∀ it ∈ o.items, ∃ p, findProduct st.products it.product_id = some p ∧
          p.is_active = true ∧ 0 < p.stock ∧ it.quantity ≤ p.stock) := by
  constructor
  · intro st as uid aid cart cc now oid onum tc
    simp only [checkout_route]
    split
    · rename_i he
      simp only [List.isEmpty_iff] at he
      constructor
      · rintro ⟨st2, o, hplaced⟩
        exact CheckoutOutcome.noConfusion hplaced
      · rintro ⟨hne, _⟩
        exact absurd he hne
    · rename_i he
      simp only [List.isEmpty_iff] at he
      cases hres : resolve_address as uid aid with
      | invalidAddress =>
        constructor
        · rintro ⟨st2, o, hplaced⟩
          exact CheckoutOutcome.noConfusion hplaced
        · rintro ⟨_, a, ha⟩
          exact AddressResolution.noConfusion ha
      | noShippingAddress =>
        constructor
        · rintro ⟨st2, o, hplaced⟩
          exact CheckoutOutcome.noConfusion hplaced
        · rintro ⟨_, a, ha⟩
          exact AddressResolution.noConfusion ha
      | resolved a =>
        cases hc : checkout st cart cc now oid onum tc with
        | none =>
          exact absurd ((checkout_eq_none_iff st cart cc now oid onum tc).1 hc) he
        | some r =>
          cases r with
          | mk st2 o =>
            constructor
            · intro _
              exact ⟨he, ⟨a, rfl⟩⟩
            · intro _
              exact ⟨st2, o, rfl⟩
  · intro st cart cc now oid onum tc st2 o h
    simp only [checkout] at h
    split at h
    · exact Option.noConfusion h
    · injection h with h
      injection h with hst ho
      subst ho
      intro it hit
      rcases List.mem_map.1 hit with ⟨l, hl, rfl⟩
      rcases List.mem_filterMap.1 hl with ⟨a, _, ha⟩
      cases hf : findProduct st.products a.1 with
      | none => simp [priceLine, hf] at ha
      | some p =>
        simp only [priceLine, hf] at ha
        split at ha
        · rename_i hcond
          simp only [Option.some.injEq] at ha
          rw [← ha]
          refine ⟨p, ?_, hcond.1, hcond.2, ?_⟩
          · show findProduct st.products p.id = some p
            rw [findProduct_id hf]
            exact hf
          · show min a.2 p.stock ≤ p.stock
            exact min_le_right _ _
        · exact absurd ha (by simp)

def C2worder : Order :=
  ⟨7, "MZ2W", "placed", "pending", 300, 54, 50, 0, none, 404, some "T2W", none,
    [⟨1, 3, 100, "Mesh", "SKU-2"⟩]⟩

def C2wst2 : StoreState :=
  ⟨[⟨1, "Mesh", "SKU-2", 100, 0, 3, true⟩], C2cs, [C2worder]⟩

def C2as : List Address := [⟨1, 9, true⟩]

theorem C2_amended_witness :
    (cartLines C2st.products [(1, 5)] ≠ [] ∧
        (∃ a, resolve_address C2as 9 0 = AddressResolution.resolved a)) ∧
      (∃ st2 o, checkout_route C2st C2as 9 0 [(1, 5)] none 5 7 "MZ2W" "T2W" =
          CheckoutOutcome.placed st2 o) ∧
      checkout C2st [(1, 5)] none 5 7 "MZ2W" "T2W" = some (C2wst2, C2worder) ∧
      (∀ it ∈ C2worder.items, ∃ p, findProduct C2st.products it.product_id = some p ∧
        p.is_active = true ∧ 0 < p.stock ∧ it.quantity ≤ p.stock) := by
  have hne : cartLines C2st.products [(1, 5)] ≠ [] := by
    norm_num [C2st, C2ps, cartLines, priceLine, findProduct, List.find?, List.filterMap,
      min_def]
  have haddr : resolve_address C2as 9 0 = AddressResolution.resolved ⟨1, 9, true⟩ := by
    norm_num [C2as, resolve_address, userAddresses, List.filter, List.find?]
  have hrun : checkout C2st [(1, 5)] none 5 7 "MZ2W" "T2W" = some (C2wst2, C2worder) := by
    norm_num [C2st, C2ps, C2wst2, C2worder, checkout, cart_items, cartLines, priceLine,
      findProduct, List.find?, List.filterMap, List.isEmpty, min_def,
      couponSessionDiscount, round2, decrementStock]
  exact ⟨⟨hne, ⟨_, haddr⟩⟩,
    (C2_amended.1 C2st C2as 9 0 [(1, 5)] none 5 7 "MZ2W" "T2W").mpr ⟨hne, ⟨_, haddr⟩⟩,
    hrun, C2_amended.2 C2st [(1, 5)] none 5 7 "MZ2W" "T2W" C2wst2 C2worder hrun⟩

end Metalzone
